import Mathlib

/-!
Verification development for the distributed SQL row-processor pipeline:
merge joiner, project-set processor, vectorized panic classification
(`pkg/sql/exec/error.go`), and models of the flow registry / outbox drain
protocol.  Pure shallow embeddings of the Go source; components whose code is
not part of the excerpt (processor base, flow registry, outbox, joiner-base
helpers) are modelled from the specification and marked as such.
-/

set_option maxHeartbeats 1000000

/-! ### Basic data model: rows, errors, metadata -/

/-- An encoded datum cell; `none` plays the role of SQL NULL. -/
abbrev Val := Option Int

/-- A row of encoded datums (`sqlbase.EncDatumRow`). -/
abbrev Row := List Val

/-- An error value (`error` in Go); the carried string is its message. -/
abbrev Err := String

/-- `distsqlpb.ProducerMetadata`: an out-of-band control unit.  Only the `Err`
field matters for the claims; other metadata kinds are those with `err = none`. -/
structure Meta where
  err : Option Err
deriving DecidableEq

/-- Metadata carrying an error. -/
def errMeta (e : Err) : Meta := ⟨some e⟩

/-! ### Processor state machine

Modelled from the spec: the shared `ProcessorBase` lifecycle
(`StateRunning → StateDraining → StateExhausted`), `MoveToDraining` and
`DrainHelper` live in `processorsbase.go`, which is not part of the source
excerpt (only its callers in `mergejoiner.go` / `project_set.go` are).  The
spec says: Draining is entered via `MoveToDraining(err)`; while draining the
processor emits one unit of metadata per call (own error first, then the
metadata collected from draining its inputs, then trailing-callback metadata)
until none remains, then moves to Exhausted; Exhausted is terminal and
`Next()` returns (nil, nil) forever. -/

/-- Processor lifecycle state. -/
inductive PState
  | running
  | draining
  | exhausted
deriving DecidableEq

/-- Modelled from the spec: the part of `ProcessorBase` relevant to the
lifecycle.  `inputDrainMeta` stands for the metadata that draining the
configured inputs will yield, and `callbackMeta` for the trailing-callback
metadata; both are abstract here since the inputs are external. -/
structure ProcState where
  state : PState
  trailingMeta : List Meta
  inputDrainMeta : List Meta
  callbackMeta : List Meta
deriving DecidableEq

/-- Modelled from the spec: `MoveToDraining(err)`.  When running, transition to
Draining and queue the trailing metadata: own error first, then input-drain
metadata, then callback metadata.  A no-op in any other state. -/
def moveToDraining (err : Option Err) (p : ProcState) : ProcState :=
  if p.state = PState.running then
    { p with
      state := PState.draining,
      trailingMeta :=
        (match err with
         | some e => [errMeta e]
         | none => []) ++ p.inputDrainMeta ++ p.callbackMeta }
  else p

/-- Pop one unit of trailing metadata; once none remains, move to Exhausted. -/
def popTrailing (p : ProcState) : Option Meta × ProcState :=
  match p.trailingMeta with
  | m :: rest => (some m, { p with trailingMeta := rest })
  | [] => (none, { p with state := PState.exhausted })

/-- Modelled from the spec: `DrainHelper()`.  If still running, first move to
draining; while draining emit one metadata unit per call until none remains,
then transition to Exhausted; in Exhausted return nothing. -/
def drainHelper (p : ProcState) : Option Meta × ProcState :=
  match p.state with
  | PState.running => popTrailing (moveToDraining none p)
  | PState.draining => popTrailing p
  | PState.exhausted => (none, p)

/-! ### Merge joiner (`pkg/sql/distsqlrun/mergejoiner.go`) -/

/-- `sqlbase.JoinType`, restricted to the types the merge joiner handles. -/
inductive JoinType
  | inner
  | leftOuter
  | rightOuter
  | fullOuter
  | leftSemi
  | leftAnti
  | intersectAll
  | exceptAll
deriving DecidableEq

/-- Modelled from the spec: `JoinType.IsSetOpJoin` (defined in `sqlbase`, not
part of the excerpt).  Per the spec and the comment at mergejoiner.go:191-196,
the set-operation joins are INTERSECT ALL and EXCEPT ALL. -/
def JoinType.isSetOpJoin : JoinType → Bool
  | JoinType.intersectAll => true
  | JoinType.exceptAll => true
  | _ => false

/-- Which side of the join a row belongs to (`joinSide` in joinerbase). -/
inductive Side
  | left
  | right
deriving DecidableEq

/-- Modelled from the spec: `shouldEmitUnmatchedRow` (joinerbase.go, not part
of the excerpt).  Per the spec, unmatched left rows are emitted for left
outer, full outer, left anti and EXCEPT ALL joins; unmatched right rows for
right outer and full outer joins. -/
def shouldEmitUnmatchedRow : Side → JoinType → Bool
  | Side.left, JoinType.leftOuter => true
  | Side.left, JoinType.fullOuter => true
  | Side.left, JoinType.leftAnti => true
  | Side.left, JoinType.exceptAll => true
  | Side.right, JoinType.rightOuter => true
  | Side.right, JoinType.fullOuter => true
  | _, _ => false

/-- Result of `joinerBase.render(lrow, rrow)`: an evaluation error, a filtered
pair (ON predicate false, rendered row nil), or a rendered output row. -/
inductive RenderRes
  | err (e : Err)
  | noRow
  | row (r : Row)

/-- One output of `streamMerger.NextBatch`: a metadata unit, a pair of
equal-key batches, or end of stream (both sides nil). -/
inductive MergerOut
  | meta (m : Meta)
  | batch (l r : List Row)
  | eof

/-- The merge joiner's mutable fields (`mergeJoiner` struct), together with the
external collaborators it consults: `render`/`renderUnmatched` stand for the
joinerbase expression-evaluation helpers, `cancel` for the result the
`CancelChecker` reports during this call (`none` = not canceled), and `merger`
for the stream of batches `streamMerger.NextBatch` will yield. -/
structure MJCore where
  joinType : JoinType
  render : Row → Row → RenderRes
  renderUnmatched : Row → Side → Row
  cancel : Option Err
  leftRows : List Row
  rightRows : List Row
  leftIdx : Nat
  rightIdx : Nat
  emitUnmatchedRight : Bool
  matchedRight : List Nat
  matchedRightCount : Nat
  merger : List MergerOut

/-- Result of the inner loop over the right-side batch
(mergejoiner.go:155-178), threading the fields the loop mutates. -/
inductive ScanRes
  | err (e : Err) (rightIdx : Nat) (matched : List Nat) (cnt : Nat)
  | emit (r : Row) (rightIdx : Nat) (matched : List Nat) (cnt : Nat)
  | antiBreak (rightIdx : Nat) (matched : List Nat) (cnt : Nat)
  | exhausted (rightIdx : Nat) (matched : List Nat) (cnt : Nat)

/-- The inner loop of `mergeJoiner.nextRow` over the right-side batch
(mergejoiner.go:155-178): for each unprocessed right row, render it against
the current left row; on a render error report it; on a rendered row bump
`matchedRightCount`, break out for LEFT ANTI / EXCEPT ALL, record the matched
right index when unmatched-right rows will be emitted, jump the right cursor
to the end for LEFT SEMI / INTERSECT ALL, and emit the rendered row. -/
def scanRight (render : Row → Row → RenderRes) (jt : JoinType) (emitUR : Bool)
    (lrow : Row) (rightRows : List Row) (rightIdx : Nat)
    (matched : List Nat) (cnt : Nat) : ScanRes :=
  if h : rightIdx < rightRows.length then
    let ridx := rightIdx
    match render lrow (rightRows.getD ridx []) with
    | RenderRes.err e => ScanRes.err e (ridx + 1) matched cnt
    | RenderRes.noRow => scanRight render jt emitUR lrow rightRows (ridx + 1) matched cnt
    | RenderRes.row renderedRow =>
      let cnt' := cnt + 1
      if jt = JoinType.leftAnti ∨ jt = JoinType.exceptAll then
        ScanRes.antiBreak (ridx + 1) matched cnt'
      else
        let matched' := if emitUR then ridx :: matched else matched
        let rightIdx' :=
          if jt = JoinType.leftSemi ∨ jt = JoinType.intersectAll then rightRows.length
          else ridx + 1
        ScanRes.emit renderedRow rightIdx' matched' cnt'
  else ScanRes.exhausted rightIdx matched cnt
termination_by rightRows.length - rightIdx

/-- The index adjustment between left rows (mergejoiner.go:186-196): advance
the left cursor and reset the right cursor — to the left cursor's new position
for INTERSECT ALL / EXCEPT ALL, to zero otherwise.  Returns
(new leftIdx, new rightIdx). -/
def advanceIdx (jt : JoinType) (leftIdx : Nat) : Nat × Nat :=
  let l := leftIdx + 1
  (l, if jt.isSetOpJoin then l else 0)

/-- Result of the unmatched-right scan (mergejoiner.go:210-222). -/
inductive EmitRightRes
  | emit (r : Row) (rightIdx : Nat)
  | done

/-- The loop emitting unmatched right-side rows once the left batch is
exhausted (mergejoiner.go:211-218): skip matched indexes, emit the first
unmatched right row. -/
def emitRightScan (renderUnmatched : Row → Side → Row) (rightRows : List Row)
    (rightIdx : Nat) (matched : List Nat) : EmitRightRes :=
  if h : rightIdx < rightRows.length then
    let ridx := rightIdx
    if matched.contains ridx then
      emitRightScan renderUnmatched rightRows (ridx + 1) matched
    else
      EmitRightRes.emit (renderUnmatched (rightRows.getD ridx []) Side.right) (ridx + 1)
  else EmitRightRes.done
termination_by rightRows.length - rightIdx

/-- Result of one `mergeJoiner.nextRow` call. -/
inductive NextRowRes
  | row (r : Row) (s : MJCore)
  | meta (m : Meta) (s : MJCore)
  | finished (s : MJCore)

/-- Termination measure helper: total work left in the pending batches. -/
def mergerWeight : List MergerOut → Nat
  | [] => 0
  | MergerOut.batch l _ :: rest => l.length + 1 + mergerWeight rest
  | _ :: rest => 1 + mergerWeight rest

/-- `mergeJoiner.nextRow` (mergejoiner.go:146-241): the restartable state
machine over the current pair of batches.  Returns the next output row, a
metadata unit, or `finished` when the merger yields no more batches. -/
def nextRow (s : MJCore) : NextRowRes :=
  if hl : s.leftIdx < s.leftRows.length then
    let lrow := s.leftRows.getD s.leftIdx []
    match scanRight s.render s.joinType s.emitUnmatchedRight lrow s.rightRows
        s.rightIdx s.matchedRight s.matchedRightCount with
    | ScanRes.err e ri mr c =>
      NextRowRes.meta (errMeta e)
        { s with rightIdx := ri, matchedRight := mr, matchedRightCount := c }
    | ScanRes.emit r ri mr c =>
      NextRowRes.row r
        { s with rightIdx := ri, matchedRight := mr, matchedRightCount := c }
    | ScanRes.antiBreak ri mr c =>
      match s.cancel with
      | some e =>
        NextRowRes.meta (errMeta e)
          { s with rightIdx := ri, matchedRight := mr, matchedRightCount := c }
      | none =>
        if c = 0 ∧ shouldEmitUnmatchedRow Side.left s.joinType then
          NextRowRes.row (s.renderUnmatched lrow Side.left)
            { s with leftIdx := (advanceIdx s.joinType s.leftIdx).1,
                     rightIdx := (advanceIdx s.joinType s.leftIdx).2,
                     matchedRight := mr, matchedRightCount := c }
        else
          nextRow
            { s with leftIdx := (advanceIdx s.joinType s.leftIdx).1,
                     rightIdx := (advanceIdx s.joinType s.leftIdx).2,
                     matchedRight := mr, matchedRightCount := 0 }
    | ScanRes.exhausted ri mr c =>
      match s.cancel with
      | some e =>
        NextRowRes.meta (errMeta e)
          { s with rightIdx := ri, matchedRight := mr, matchedRightCount := c }
      | none =>
        if c = 0 ∧ shouldEmitUnmatchedRow Side.left s.joinType then
          NextRowRes.row (s.renderUnmatched lrow Side.left)
            { s with leftIdx := (advanceIdx s.joinType s.leftIdx).1,
                     rightIdx := (advanceIdx s.joinType s.leftIdx).2,
                     matchedRight := mr, matchedRightCount := c }
        else
          nextRow
            { s with leftIdx := (advanceIdx s.joinType s.leftIdx).1,
                     rightIdx := (advanceIdx s.joinType s.leftIdx).2,
                     matchedRight := mr, matchedRightCount := 0 }
  else
    match hur : s.emitUnmatchedRight with
    | true =>
      match emitRightScan s.renderUnmatched s.rightRows s.rightIdx s.matchedRight with
      | EmitRightRes.emit r ri => NextRowRes.row r { s with rightIdx := ri }
      | EmitRightRes.done =>
        match hm : s.merger with
        | [] => NextRowRes.finished { s with matchedRight := [], emitUnmatchedRight := false }
        | MergerOut.meta m :: rest =>
          NextRowRes.meta m
            { s with matchedRight := [], emitUnmatchedRight := false,
                     merger := rest, leftRows := [], rightRows := [] }
        | MergerOut.eof :: rest =>
          NextRowRes.finished
            { s with matchedRight := [], emitUnmatchedRight := false,
                     merger := rest, leftRows := [], rightRows := [] }
        | MergerOut.batch l r :: rest =>
          nextRow
            { s with matchedRight := [],
                     merger := rest, leftRows := l, rightRows := r,
                     emitUnmatchedRight := shouldEmitUnmatchedRow Side.right s.joinType,
                     leftIdx := 0, rightIdx := 0 }
    | false =>
      match hm : s.merger with
      | [] => NextRowRes.finished s
      | MergerOut.meta m :: rest =>
        NextRowRes.meta m { s with merger := rest, leftRows := [], rightRows := [] }
      | MergerOut.eof :: rest =>
        NextRowRes.finished { s with merger := rest, leftRows := [], rightRows := [] }
      | MergerOut.batch l r :: rest =>
        nextRow
          { s with merger := rest, leftRows := l, rightRows := r,
                   emitUnmatchedRight := shouldEmitUnmatchedRow Side.right s.joinType,
                   leftIdx := 0, rightIdx := 0 }
termination_by (s.leftRows.length - s.leftIdx) + mergerWeight s.merger
decreasing_by
  all_goals simp_all [advanceIdx, mergerWeight]
  all_goals omega

/-- The full merge joiner: the restartable cursor core plus the processor
lifecycle state. -/
structure MJFull where
  core : MJCore
  proc : ProcState

/-- `mergeJoiner.Next` (mergejoiner.go:125-144).  While running, pull from
`nextRow`: a metadata unit with an error moves the processor to draining and
is returned; a nil row moves to draining and falls through to `DrainHelper`;
an output row is returned (post-processing by `ProcessRowHelper`, whose code
is not part of the excerpt and which the spec does not describe as filtering,
is modelled as the identity).  When not running, return `DrainHelper()`. -/
def mjNext (s : MJFull) : (Option Row × Option Meta) × MJFull :=
  if s.proc.state = PState.running then
    match nextRow s.core with
    | NextRowRes.meta m c =>
      let pr := if m.err.isSome then moveToDraining none s.proc else s.proc
      ((none, some m), ⟨c, pr⟩)
    | NextRowRes.row r c => ((some r, none), ⟨c, s.proc⟩)
    | NextRowRes.finished c =>
      let p1 := moveToDraining none s.proc
      let mp := drainHelper p1
      ((none, mp.1), ⟨c, mp.2⟩)
  else
    let mp := drainHelper s.proc
    ((none, mp.1), { s with proc := mp.2 })

/-- The state of the merge joiner after `n` calls to `Next`. -/
def mjStates (s : MJFull) : Nat → MJFull
  | 0 => s
  | n + 1 => (mjNext (mjStates s n)).2

/-- The output of the `(n+1)`-th call to `Next` (0-indexed). -/
def mjOut (s : MJFull) (n : Nat) : Option Row × Option Meta :=
  (mjNext (mjStates s n)).1

/-! ### Project-set processor (`pkg/sql/distsqlrun/project_set.go`) -/

/-- One result of `ps.input.Next()`: a row, a metadata unit, or end of input
(row and metadata both nil). -/
inductive PSInputOut
  | row (r : Row)
  | meta (m : Meta)
  | eof

/-- One entry of the parallel slices `exprHelpers[i]` / `funcs[i]` / `gens[i]`
/ `done[i]` of `projectSetProcessor`, zipped into a single record.  `eval` is
`exprHelpers[i].eval`; `genF` is non-none exactly when `funcs[i]` is a
set-generating function, in which case applying it to an input row stands for
`EvalArgsAndGetGenerator` + `gen.Start()` and yields the sequence of value
tuples the generator will produce for that row; `numCols` is
`spec.NumColsPerGen[i]`. -/
structure Slot where
  eval : List Val → Except Err Val
  genF : Option (Row → Except Err (List (List Val)))
  numCols : Nat
  gen : Option (List (List Val))
  done : Bool

/-- Write consecutive values into the row buffer starting at index `i`
(the `ps.rowBuffer[colIdx] = ...; colIdx++` loop). -/
def writeVals : List Val → Nat → List Val → List Val
  | buf, _, [] => buf
  | buf, i, v :: vs => writeVals (buf.set i v) (i + 1) vs

/-- Fill `n` consecutive NULLs into the row buffer starting at index `i`. -/
def writeNulls : List Val → Nat → Nat → List Val
  | buf, _, 0 => buf
  | buf, i, n + 1 => writeNulls (buf.set i none) (i + 1) n

/-- Go's `copy(dst, src)` for rows: overwrite the prefix of `dst` with `src`,
bounded by both lengths. -/
def copyPrefix : List Val → List Val → List Val
  | [], dst => dst
  | _ :: _, [] => []
  | v :: src, _ :: dst => v :: copyPrefix src dst

/-- The generator-initialization part of `nextInputRow`
(project_set.go:279-301): for every SRF slot, evaluate the generator for the
new input row (any error aborts) and reset `done[i]` to false for every slot. -/
def initGens : List Slot → Row → Except Err (List Slot)
  | [], _ => Except.ok []
  | sl :: rest, r =>
    match sl.genF with
    | some f =>
      match f r with
      | Except.error e => Except.error e
      | Except.ok v =>
        match initGens rest r with
        | Except.error e => Except.error e
        | Except.ok rs => Except.ok ({ sl with gen := some v, done := false } :: rs)
    | none =>
      match initGens rest r with
      | Except.error e => Except.error e
      | Except.ok rs => Except.ok ({ sl with done := false } :: rs)

/-- `projectSetProcessor.nextGeneratorValues` (project_set.go:308-361):
walk the slots left to right threading the column cursor and the row buffer.
A generator slot that still has values writes its next tuple and reports new
values available; an empty one is marked done and pads NULLs; a done one only
advances the cursor.  A scalar slot is evaluated once per input row
(available), afterwards it writes NULL.  Returns
(newValAvail, rowBuffer, slots). -/
def nextGenVals : List Slot → Nat → List Val → Bool →
    Except Err (Bool × List Val × List Slot)
  | [], _, buf, avail => Except.ok (avail, buf, [])
  | sl :: rest, colIdx, buf, avail =>
    match sl.gen with
    | some vals =>
      if sl.done then
        match nextGenVals rest (colIdx + sl.numCols) buf avail with
        | Except.error e => Except.error e
        | Except.ok (a, b, rs) => Except.ok (a, b, sl :: rs)
      else
        match vals with
        | v :: vrest =>
          match nextGenVals rest (colIdx + v.length) (writeVals buf colIdx v) true with
          | Except.error e => Except.error e
          | Except.ok (a, b, rs) => Except.ok (a, b, { sl with gen := some vrest } :: rs)
        | [] =>
          match nextGenVals rest (colIdx + sl.numCols) (writeNulls buf colIdx sl.numCols) avail with
          | Except.error e => Except.error e
          | Except.ok (a, b, rs) =>
            Except.ok (a, b, { sl with gen := some [], done := true } :: rs)
    | none =>
      if sl.done then
        match nextGenVals rest (colIdx + 1) (buf.set colIdx (none : Val)) avail with
        | Except.error e => Except.error e
        | Except.ok (a, b, rs) => Except.ok (a, b, sl :: rs)
      else
        match sl.eval buf with
        | Except.error e => Except.error e
        | Except.ok value =>
          match nextGenVals rest (colIdx + 1) (buf.set colIdx value) true with
          | Except.error e => Except.error e
          | Except.ok (a, b, rs) => Except.ok (a, b, { sl with done := true } :: rs)

/-- `cancelCheckCount` (project_set.go:365). -/
def cancelCheckCount : Nat := 10000

/-- The project-set processor's state: lifecycle state, context-cancellation
status (`ps.Ctx.Err()`, `none` = not canceled), the emit counter, the pending
input-row flag, the row buffer, the zipped expression slots, the remaining
results of `ps.input.Next()` (an exhausted list behaves as end of input), and
the number of input columns. -/
structure PSState where
  proc : ProcState
  ctxErr : Option Err
  emitCount : Nat
  inputRowReady : Bool
  rowBuffer : List Val
  slots : List Slot
  input : List PSInputOut
  numInputCols : Nat

/-- The termination measure of the `Next` loop: every iteration either
returns, consumes one input element, or clears the pending-row flag. -/
def psMeasure (s : PSState) : Nat :=
  2 * s.input.length + (if s.inputRowReady then 1 else 0)

/-- One iteration of the `for ps.State == StateRunning` loop of
`projectSetProcessor.Next` (project_set.go:364-419): bump the emit counter and
check cancellation every `cancelCheckCount`-th iteration; read the next input
row when none is pending (metadata is forwarded, an error metadata or end of
input moves to draining, a fresh row re-initializes the generators); then
produce the next set of generated values, returning the row buffer if any
generator produced new values (`Sum.inl` = the call returns) and otherwise
continuing with the next iteration (`Sum.inr` = the loop goes around).
`ProcessRowHelper` (processorsbase.go, not part of the excerpt; the spec does
not describe it as filtering) is modelled as the identity. -/
def psIter (s : PSState) : Sum ((Option Row × Option Meta) × PSState) PSState :=
  let ec := s.emitCount + 1
  if ec % cancelCheckCount = 0 ∧ s.ctxErr.isSome then
    let p1 := moveToDraining s.ctxErr s.proc
    let mp := drainHelper p1
    Sum.inl ((none, mp.1), { s with emitCount := ec, proc := mp.2 })
  else if s.inputRowReady then
    match nextGenVals s.slots s.numInputCols s.rowBuffer false with
    | Except.error e =>
      let p1 := moveToDraining (some e) s.proc
      let mp := drainHelper p1
      Sum.inl ((none, mp.1), { s with emitCount := ec, proc := mp.2 })
    | Except.ok (avail, buf2, slots2) =>
      if avail then
        Sum.inl ((some buf2, none),
          { s with emitCount := ec, rowBuffer := buf2, slots := slots2 })
      else
        Sum.inr { s with emitCount := ec, rowBuffer := buf2, slots := slots2,
                         inputRowReady := false }
  else
    match s.input with
    | [] =>
      let p1 := moveToDraining none s.proc
      let mp := drainHelper p1
      Sum.inl ((none, mp.1), { s with emitCount := ec, proc := mp.2 })
    | PSInputOut.eof :: rest =>
      let p1 := moveToDraining none s.proc
      let mp := drainHelper p1
      Sum.inl ((none, mp.1), { s with emitCount := ec, input := rest, proc := mp.2 })
    | PSInputOut.meta mm :: rest =>
      let p1 := if mm.err.isSome then moveToDraining none s.proc else s.proc
      Sum.inl ((none, some mm), { s with emitCount := ec, input := rest, proc := p1 })
    | PSInputOut.row r :: rest =>
      match initGens s.slots r with
      | Except.error e =>
        let p1 := moveToDraining (some e) s.proc
        let mp := drainHelper p1
        Sum.inl ((none, mp.1), { s with emitCount := ec, input := rest, proc := mp.2 })
      | Except.ok slots1 =>
        match nextGenVals slots1 s.numInputCols (copyPrefix r s.rowBuffer) false with
        | Except.error e =>
          let p1 := moveToDraining (some e) s.proc
          let mp := drainHelper p1
          Sum.inl ((none, mp.1), { s with emitCount := ec, input := rest, slots := slots1,
                                          rowBuffer := copyPrefix r s.rowBuffer,
                                          inputRowReady := true, proc := mp.2 })
        | Except.ok (avail, buf2, slots2) =>
          if avail then
            Sum.inl ((some buf2, none),
              { s with emitCount := ec, input := rest, rowBuffer := buf2,
                       slots := slots2, inputRowReady := true })
          else
            Sum.inr { s with emitCount := ec, input := rest, rowBuffer := buf2,
                             slots := slots2, inputRowReady := false }

theorem psIter_inr_measure (s s2 : PSState) (h : psIter s = Sum.inr s2) :
    psMeasure s2 < psMeasure s := by
  unfold psIter at h
  by_cases hc : (s.emitCount + 1) % cancelCheckCount = 0 ∧ s.ctxErr.isSome = true
  · rw [if_pos hc] at h
    simp at h
  · rw [if_neg hc] at h
    by_cases hr : s.inputRowReady = true
    · rw [if_pos hr] at h
      cases hg : nextGenVals s.slots s.numInputCols s.rowBuffer false with
      | error e => rw [hg] at h; simp at h
      | ok t =>
        rw [hg] at h
        obtain ⟨avail, buf2, slots2⟩ := t
        by_cases ha : avail = true
        · simp [ha] at h
        · simp [ha] at h
          subst h
          simp [psMeasure, hr]
    · rw [if_neg hr] at h
      have hr0 : s.inputRowReady = false := by simpa using hr
      cases hin : s.input with
      | nil => rw [hin] at h; simp at h
      | cons head rest =>
        rw [hin] at h
        cases head with
        | eof => simp at h
        | meta mm => simp at h
        | row r =>
          simp only at h
          cases hi : initGens s.slots r with
          | error e => rw [hi] at h; simp at h
          | ok slots1 =>
            rw [hi] at h
            dsimp only at h
            cases hg : nextGenVals slots1 s.numInputCols (copyPrefix r s.rowBuffer) false with
            | error e => rw [hg] at h; simp at h
            | ok t =>
              rw [hg] at h
              obtain ⟨avail, buf2, slots2⟩ := t
              by_cases ha : avail = true
              · simp [ha] at h
              · simp [ha] at h
                subst h
                simp [psMeasure, hr0, hin]

/-- `projectSetProcessor.Next`'s loop: iterate `psIter` until it returns. -/
def psNextLoop (s : PSState) : (Option Row × Option Meta) × PSState :=
  match h : psIter s with
  | Sum.inl r => r
  | Sum.inr s2 => psNextLoop s2
termination_by psMeasure s
decreasing_by exact psIter_inr_measure s s2 h

/-- `projectSetProcessor.Next` (project_set.go:364-419): run the loop while in
the Running state; otherwise fall through to `DrainHelper()`. -/
def psNext (s : PSState) : (Option Row × Option Meta) × PSState :=
  if s.proc.state = PState.running then psNextLoop s
  else
    let mp := drainHelper s.proc
    ((none, mp.1), { s with proc := mp.2 })

/-- The state of the project-set processor after `n` calls to `Next`. -/
def psStates (s : PSState) : Nat → PSState
  | 0 => s
  | n + 1 => (psNext (psStates s n)).2

/-- The output of the `(n+1)`-th call to `Next` (0-indexed). -/
def psOut (s : PSState) (n : Nat) : Option Row × Option Meta :=
  (psNext (psStates s n)).1

/-! ### Vectorized panic classification (`pkg/sql/exec/error.go`) -/

/-- Character-list prefix test (executable model of `strings.HasPrefix`). -/
def listIsPrefixOf : List Char → List Char → Bool
  | [], _ => true
  | _ :: _, [] => false
  | a :: as, b :: bs => a == b && listIsPrefixOf as bs

/-- `strings.HasPrefix s sub` on the underlying character lists. -/
def strHasPrefixOf (sub s : String) : Bool :=
  listIsPrefixOf sub.data s.data

/-- Substring containment on character lists. -/
def listContainsSub (sub : List Char) : List Char → Bool
  | [] => listIsPrefixOf sub []
  | c :: cs => listIsPrefixOf sub (c :: cs) || listContainsSub sub cs

/-- `strings.Contains s sub` on the underlying character lists. -/
def strContainsSub (s sub : String) : Bool :=
  listContainsSub sub.data s.data

/-- Whitespace characters for `strings.TrimSpace`. -/
def isSpaceChar (c : Char) : Bool :=
  c == ' ' || c == '\t' || c == '\n' || c == '\r'

/-- `strings.TrimSpace`. -/
def trimSpace (s : String) : String :=
  ⟨((s.data.dropWhile isSpaceChar).reverse.dropWhile isSpaceChar).reverse⟩

/-- `panicLineSubstring` (error.go:30). -/
def panicLineSubstring : String := "runtime/panic.go"

/-- `execPackagePrefix` (error.go:84). -/
def execPackagePrefix : String := "github.com/cockroachdb/cockroach/pkg/sql/exec"

/-- `colBatchScanPrefix` (error.go:85). -/
def colBatchScanPrefix : String :=
  "github.com/cockroachdb/cockroach/pkg/sql/distsqlrun.(*colBatchScan)"

/-- `isPanicFromVectorizedEngine` (error.go:92-95): does the line of code the
panic was emitted from belong to the vectorized engine?  Decided by
string-prefix matching on the (already trimmed) stack-frame line. -/
def isPanicFromVectorizedEngine (panicEmittedFrom : String) : Bool :=
  strHasPrefixOf execPackagePrefix panicEmittedFrom ||
    strHasPrefixOf colBatchScanPrefix panicEmittedFrom

/-- `pgcode.Uncategorized`. -/
def pgcodeUncategorized : String := "XXUUU"

/-- The object a Go `panic` carries: either an `error` value (with the pg code
`pgerror.GetPGCode` reports for it) or some other value rendered as a string. -/
inductive PanicObj
  | goError (msg : String) (pgCode : String)
  | other (s : String)
deriving DecidableEq

/-- The observable behaviour of `operation()`: either it returns normally, or
it panics; a panicking run is characterized by the stack trace
`debug.Stack()` reports in the deferred recover (as a list of lines) and the
panic object. -/
inductive OpOutcome
  | ok
  | panicked (stack : List String) (payload : PanicObj)

/-- The scanner loop of error.go:39-49: find the first stack line containing
`panicLineSubstring` and return the lines after it; `none` if no such line. -/
def findPanicLine : List String → Option (List String)
  | [] => none
  | line :: rest =>
    if strContainsSub line panicLineSubstring then some rest
    else findPanicLine rest

/-- The error message produced when a caught panic is converted: an
uncategorized or non-error payload is annotated (errors.Wrap /
errors.AssertionFailedf with the same message text), a categorized error is
returned as is. -/
def caughtErrMsg : PanicObj → String
  | PanicObj.goError msg code =>
    if code = pgcodeUncategorized then "unexpected error from the vectorized runtime: " ++ msg
    else msg
  | PanicObj.other s => "unexpected error from the vectorized runtime: " ++ s

/-- The observable result of `CatchVectorizedRuntimeError`: a normal return
with `retErr`, a re-raise of the original panic object (the
`panic(err)` at error.go:70), or one of the internal panics thrown when the
stack trace is malformed (error.go:48, error.go:73). -/
inductive CatchResult
  | ret (e : Option Err)
  | repanicked (p : PanicObj)
  | internalFailure (msg : String)
deriving DecidableEq

/-- `CatchVectorizedRuntimeError(operation)` (error.go:35-81): run the
operation; if it panics, locate the `runtime/panic.go` frame in the stack
trace, trim the following line (the line the panic was emitted from), and if
that line belongs to the vectorized engine convert the panic object to an
error (annotating uncategorized errors and non-error objects), otherwise
re-raise the panic unchanged. -/
def CatchVectorizedRuntimeError (operation : OpOutcome) : CatchResult :=
  match operation with
  | OpOutcome.ok => CatchResult.ret none
  | OpOutcome.panicked stack payload =>
    match findPanicLine stack with
    | none => CatchResult.internalFailure "panic line not found in the stack trace"
    | some rest =>
      match rest with
      | [] => CatchResult.internalFailure "unexpectedly there is no line below the panic line"
      | next :: _ =>
        let panicEmittedFrom := trimSpace next
        if isPanicFromVectorizedEngine panicEmittedFrom then
          CatchResult.ret (some (caughtErrMsg payload))
        else
          CatchResult.repanicked payload

/-! ### Outbox run loop (modelled from the spec)

Modelled from the spec: the `Outbox` itself (`pkg/sql/exec/colrpc/outbox.go`)
is not part of the source excerpt — only its tests are.  Per the spec (§4.4 and
§8): the run loop pulls batches from its input and writes them to the stream;
a panic of the input is recovered and classified exactly as
`CatchVectorizedRuntimeError` does (vectorized-engine panics become an error
sent eagerly as metadata, all other panics are re-raised to the caller); and
the outbox always drains every registered metadata source — even after an
error — before closing the stream.  The inbox observes every metadata message
sent on the stream in `DrainMeta`. -/

/-- One result of the outbox input's `Next`: a batch of the given length
(length 0 signals end of data) or a panic, characterized like `OpOutcome`. -/
inductive OutboxInputStep
  | batch (len : Nat)
  | panics (stack : List String) (payload : PanicObj)

/-- How the outbox data loop ended. -/
inductive OutboxLoopEnd
  | clean
  | errored (e : Err)
  | panicked (p : PanicObj)

/-- Modelled from the spec: the outbox data loop.  Batches are forwarded until
a zero-length batch (end of data); a panic of the input is classified via
`CatchVectorizedRuntimeError`. -/
def outboxLoop : List OutboxInputStep → OutboxLoopEnd
  | [] => OutboxLoopEnd.clean
  | OutboxInputStep.batch 0 :: _ => OutboxLoopEnd.clean
  | OutboxInputStep.batch (_ + 1) :: rest => outboxLoop rest
  | OutboxInputStep.panics stack payload :: _ =>
    match CatchVectorizedRuntimeError (OpOutcome.panicked stack payload) with
    | CatchResult.ret (some e) => OutboxLoopEnd.errored e
    | CatchResult.ret none => OutboxLoopEnd.clean
    | CatchResult.repanicked p => OutboxLoopEnd.panicked p
    | CatchResult.internalFailure msg => OutboxLoopEnd.panicked (PanicObj.other msg)

/-- The observable outcome of one outbox run: the metadata messages sent on
the stream (which the paired inbox returns from `DrainMeta`), how many
registered metadata sources had their drain callback invoked, and whether a
panic escaped to the caller. -/
structure OutboxResult where
  sentMeta : List Meta
  drainedSources : Nat
  propagated : Option PanicObj

/-- Modelled from the spec: `Outbox.runWithStream`.  After the data loop, and
unless a panic is being re-raised to the caller, send the caught error (if
any) as metadata, then drain every registered metadata source and forward its
metadata, then close the stream. -/
def outboxRun (input : List OutboxInputStep) (metaSources : List (List Meta)) :
    OutboxResult :=
  match outboxLoop input with
  | OutboxLoopEnd.panicked p => { sentMeta := [], drainedSources := 0, propagated := some p }
  | OutboxLoopEnd.clean =>
    { sentMeta := metaSources.flatten, drainedSources := metaSources.length, propagated := none }
  | OutboxLoopEnd.errored e =>
    { sentMeta := errMeta e :: metaSources.flatten, drainedSources := metaSources.length,
      propagated := none }

/-! ### Flow registry handshake protocol (modelled from the spec)

Modelled from the spec: the `flowRegistry` (`flow_registry.go`) is not part of
the source excerpt — only its tests are.  Per the spec (§4.2): when
`ConnectInboundStream` arrives for a registered flow it connects immediately
and sends one handshake saying the consumer is scheduled; when it arrives
before `RegisterFlow` it sends one immediate handshake saying the consumer is
not yet scheduled, parks the stream as pending, and blocks up to a timeout for
the flow to register; `RegisterFlow` consumes pending streams by connecting
them immediately — at which moment one more handshake (consumer scheduled) is
sent; a per-stream timer installed at registration marks a never-arriving
stream canceled, after which a late `ConnectInboundStream` fails with "came
too late" (and no handshake).  The model linearizes the interaction for one
stream as a sequence of events. -/

/-- Events affecting one inbound stream, in the order they win the registry's
mutex: the consumer registers (`RegisterFlow`), the producer arrives
(`ConnectInboundStream`), the per-stream connection timer fires, or the
producer's blocking wait for registration times out. -/
inductive RegEv
  | register
  | connect
  | streamTimerFire
  | connectTimeout
deriving DecidableEq

/-- The registry's view of one inbound stream plus the handshake messages the
producer has been sent (oldest first). -/
structure RegState where
  registered : Bool
  connected : Bool
  canceled : Bool
  pending : Bool
  attempted : Bool
  handshakes : List Bool
  connectErr : Option String
deriving DecidableEq

/-- The initial registry state for a stream: nothing has happened yet. -/
def regInit : RegState :=
  { registered := false, connected := false, canceled := false, pending := false,
    attempted := false, handshakes := [], connectErr := none }

/-- Modelled from the spec: one registry transition.  `register` publishes the
flow and immediately connects a pending stream (sending the
consumer-scheduled handshake).  `connect` (first producer arrival only) fails
on a canceled stream, otherwise connects immediately with a
consumer-scheduled handshake if the flow is registered, and otherwise sends a
consumer-not-scheduled handshake and parks the stream as pending.
`streamTimerFire` cancels a registered-but-never-arrived stream.
`connectTimeout` makes the parked producer give up with "came too late". -/
def regStep (s : RegState) (e : RegEv) : RegState :=
  match e with
  | RegEv.register =>
    if s.registered then s
    else if s.pending then
      { s with registered := true, handshakes := s.handshakes ++ [true],
               connected := true, pending := false }
    else { s with registered := true }
  | RegEv.connect =>
    if s.attempted then s
    else if s.canceled then
      { s with attempted := true, connectErr := some "came too late" }
    else if s.registered then
      { s with attempted := true, handshakes := s.handshakes ++ [true], connected := true }
    else
      { s with attempted := true, handshakes := s.handshakes ++ [false], pending := true }
  | RegEv.streamTimerFire =>
    if s.registered ∧ ¬s.connected ∧ ¬s.pending then { s with canceled := true } else s
  | RegEv.connectTimeout =>
    if s.pending then { s with pending := false, connectErr := some "came too late" }
    else s

/-- Run the registry over a sequence of events from the initial state. -/
def regRun (evs : List RegEv) : RegState :=
  evs.foldl regStep regInit

/-! ### Registry drain wait (modelled from the spec)

Modelled from the spec: `flowRegistry.Drain(flowDrainWait, minFlowDrainWait)`
(`flow_registry.go`, not part of the source excerpt).  Per the spec (§4.2 and
§8): Drain blocks until all currently registered flows complete or
`flowDrainWait` elapses, but waits at least `minFlowDrainWait` even if zero
flows are registered, re-checking the registered set after the minimum wait so
a flow that registered during the wait is still waited for.  Durations and
instants are modelled as natural numbers. -/

/-- One drain scenario: how many flows are registered when `Drain` is called,
how many are registered when the set is re-checked after the minimum wait, and
after how much further time the registered flows all complete. -/
structure DrainScenario where
  flowsAtStart : Nat
  flowsAfterMinWait : Nat
  remainingCompleteAfter : Nat

/-- Modelled from the spec: the time at which `Drain` returns, measured from
its call.  With zero flows registered at the start it sleeps the whole
`minFlowDrainWait` and re-checks the registered set; any flows found then (or
present from the start) are waited for, bounded by `flowDrainWait`. -/
def drainReturnTime (flowDrainWait minFlowDrainWait : Nat) (sc : DrainScenario) : Nat :=
  if sc.flowsAtStart = 0 then
    if sc.flowsAfterMinWait = 0 then minFlowDrainWait
    else minFlowDrainWait + min sc.remainingCompleteAfter flowDrainWait
  else min sc.remainingCompleteAfter flowDrainWait

/-! ### Helper lemmas -/

theorem drainHelper_exhausted (p : ProcState) (h : p.state = PState.exhausted) :
    drainHelper p = (none, p) := by
  unfold drainHelper
  rw [h]

theorem mjNext_exhausted (s : MJFull) (h : s.proc.state = PState.exhausted) :
    mjNext s = ((none, none), s) := by
  unfold mjNext
  rw [drainHelper_exhausted s.proc h]
  simp [h]

theorem psNext_exhausted (s : PSState) (h : s.proc.state = PState.exhausted) :
    psNext s = ((none, none), s) := by
  unfold psNext
  rw [drainHelper_exhausted s.proc h]
  simp [h]

theorem mjStates_exhausted (s : MJFull) (h : s.proc.state = PState.exhausted) :
    ∀ n, mjStates s n = s := by
  intro n
  induction n with
  | zero => rfl
  | succ n ih => simp [mjStates, ih, mjNext_exhausted s h]

theorem psStates_exhausted (s : PSState) (h : s.proc.state = PState.exhausted) :
    ∀ n, psStates s n = s := by
  intro n
  induction n with
  | zero => rfl
  | succ n ih => simp [psStates, ih, psNext_exhausted s h]

/-! ### C8 -/

/-- C8: once a processor (merge joiner or project-set) has reached the
Exhausted state, every subsequent call to `Next()` returns (nil, nil), for any
number of calls. -/
theorem processors_exhausted_next_nil :
    (∀ (s : MJFull) (n : Nat), s.proc.state = PState.exhausted →
        mjOut s n = (none, none))
    ∧ (∀ (s : PSState) (n : Nat), s.proc.state = PState.exhausted →
        psOut s n = (none, none)) := by
  constructor
  · intro s n h
    unfold mjOut
    rw [mjStates_exhausted s h n, mjNext_exhausted s h]
  · intro s n h
    unfold psOut
    rw [psStates_exhausted s h n, psNext_exhausted s h]

/-- An exhausted processor-base state. -/
def exhaustedProc : ProcState :=
  { state := PState.exhausted, trailingMeta := [], inputDrainMeta := [], callbackMeta := [] }

/-- A concrete merge-joiner configuration used by the witnesses. -/
def mjDemoCore : MJCore :=
  { joinType := JoinType.inner,
    render := fun _ _ => RenderRes.noRow,
    renderUnmatched := fun r _ => r,
    cancel := none,
    leftRows := [], rightRows := [], leftIdx := 0, rightIdx := 0,
    emitUnmatchedRight := false, matchedRight := [], matchedRightCount := 0,
    merger := [] }

/-- A concrete exhausted project-set state used by the witnesses. -/
def psDemoExhausted : PSState :=
  { proc := exhaustedProc, ctxErr := none, emitCount := 0, inputRowReady := false,
    rowBuffer := [], slots := [], input := [], numInputCols := 0 }

theorem processors_exhausted_next_nil_witness :
    mjOut ⟨mjDemoCore, exhaustedProc⟩ 3 = (none, none)
    ∧ psOut psDemoExhausted 3 = (none, none) :=
  ⟨processors_exhausted_next_nil.1 ⟨mjDemoCore, exhaustedProc⟩ 3 rfl,
   processors_exhausted_next_nil.2 psDemoExhausted 3 rfl⟩

/-! ### C9 -/

/-- C9: for every W, `Drain` with `minFlowDrainWait = W` called while zero
flows are registered does not return before W has elapsed; after the minimum
wait it re-checks the registered set, so a flow registered during the wait is
still waited for (bounded by `flowDrainWait`). -/
theorem flowRegistry_drain_min_wait (fw W : Nat) (sc : DrainScenario)
    (h : sc.flowsAtStart = 0) :
    W ≤ drainReturnTime fw W sc
    ∧ (sc.flowsAfterMinWait ≠ 0 →
        drainReturnTime fw W sc = W + min sc.remainingCompleteAfter fw) := by
  unfold drainReturnTime
  rw [if_pos h]
  by_cases h2 : sc.flowsAfterMinWait = 0
  · rw [if_pos h2]
    exact ⟨Nat.le_refl W, fun hc => absurd h2 hc⟩
  · rw [if_neg h2]
    exact ⟨Nat.le_add_right W _, fun _ => rfl⟩

theorem flowRegistry_drain_min_wait_witness :
    3 ≤ drainReturnTime 5 3 ⟨0, 1, 2⟩
    ∧ (1 ≠ 0 → drainReturnTime 5 3 ⟨0, 1, 2⟩ = 3 + min 2 5) :=
  flowRegistry_drain_min_wait 5 3 ⟨0, 1, 2⟩ rfl

/-! ### C6 -/

theorem catch_vectorized_caught (stack : List String) (payload : PanicObj)
    (next : String) (rest : List String)
    (h1 : findPanicLine stack = some (next :: rest))
    (h2 : isPanicFromVectorizedEngine (trimSpace next) = true) :
    CatchVectorizedRuntimeError (OpOutcome.panicked stack payload) =
      CatchResult.ret (some (caughtErrMsg payload)) := by
  simp [CatchVectorizedRuntimeError, h1, h2]

theorem catch_vectorized_repanicked (stack : List String) (payload : PanicObj)
    (next : String) (rest : List String)
    (h1 : findPanicLine stack = some (next :: rest))
    (h2 : isPanicFromVectorizedEngine (trimSpace next) = false) :
    CatchVectorizedRuntimeError (OpOutcome.panicked stack payload) =
      CatchResult.repanicked payload := by
  simp [CatchVectorizedRuntimeError, h1, h2]

/-- C6: `CatchVectorizedRuntimeError(operation)` returns nil when the
operation completes without panicking; when the operation panics and the
panic's emitting stack frame has a vectorized-engine package prefix it is
recovered and returned as a non-nil error; every panic whose origin is not
the vectorized engine is re-raised unchanged. -/
theorem catchVectorizedRuntimeError_classification :
    CatchVectorizedRuntimeError OpOutcome.ok = CatchResult.ret none
    ∧ (∀ (stack : List String) (payload : PanicObj) (next : String) (rest : List String),
        findPanicLine stack = some (next :: rest) →
        isPanicFromVectorizedEngine (trimSpace next) = true →
        CatchVectorizedRuntimeError (OpOutcome.panicked stack payload) =
          CatchResult.ret (some (caughtErrMsg payload)))
    ∧ (∀ (stack : List String) (payload : PanicObj) (next : String) (rest : List String),
        findPanicLine stack = some (next :: rest) →
        isPanicFromVectorizedEngine (trimSpace next) = false →
        CatchVectorizedRuntimeError (OpOutcome.panicked stack payload) =
          CatchResult.repanicked payload) :=
  ⟨rfl, catch_vectorized_caught, catch_vectorized_repanicked⟩

/-- A stack trace whose panic was emitted from the vectorized engine. -/
def vecStack : List String :=
  ["goroutine 5:", "runtime/panic.go:522",
   " github.com/cockroachdb/cockroach/pkg/sql/exec/mergejoiner.go:55"]

/-- A stack trace whose panic was emitted outside the vectorized engine. -/
def nonVecStack : List String :=
  ["goroutine 5:", "runtime/panic.go:522", " github.com/foo/bar.go:10"]

theorem catchVectorizedRuntimeError_classification_witness :
    CatchVectorizedRuntimeError
        (OpOutcome.panicked vecStack (PanicObj.other "boom")) =
      CatchResult.ret (some (caughtErrMsg (PanicObj.other "boom")))
    ∧ CatchVectorizedRuntimeError
        (OpOutcome.panicked nonVecStack (PanicObj.other "boom")) =
      CatchResult.repanicked (PanicObj.other "boom") :=
  ⟨catchVectorizedRuntimeError_classification.2.1 vecStack (PanicObj.other "boom")
      " github.com/cockroachdb/cockroach/pkg/sql/exec/mergejoiner.go:55" []
      (by decide) (by decide),
   catchVectorizedRuntimeError_classification.2.2 nonVecStack (PanicObj.other "boom")
      " github.com/foo/bar.go:10" [] (by decide) (by decide)⟩

/-! ### C4 -/

theorem scanRight_suffix (render : Row → Row → RenderRes) (jt : JoinType) (eUR : Bool)
    (lrow : Row) (rows1 rows2 : List Row) (k : Nat) (matched : List Nat) (cnt : Nat)
    (hlen : rows1.length = rows2.length)
    (hsuff : ∀ i, k ≤ i → rows1.getD i [] = rows2.getD i []) :
    scanRight render jt eUR lrow rows1 k matched cnt =
      scanRight render jt eUR lrow rows2 k matched cnt := by
  rw [scanRight, scanRight]
  by_cases h : k < rows1.length
  · have h2 : k < rows2.length := hlen ▸ h
    have hk := hsuff k (Nat.le_refl k)
    simp only [dif_pos h, dif_pos h2, hk, hlen]
    cases render lrow (rows2.getD k []) with
    | err e => rfl
    | noRow =>
      exact scanRight_suffix render jt eUR lrow rows1 rows2 (k + 1) matched cnt hlen
        (fun i hi => hsuff i (Nat.le_of_succ_le hi))
    | row rr => rfl
  · have h2 : ¬ k < rows2.length := hlen ▸ h
    rw [dif_neg h, dif_neg h2]
termination_by rows1.length - k
decreasing_by omega

/-- C4: for INTERSECT ALL and EXCEPT ALL (exactly the set-operation join
types), when the merge joiner advances from one left row to the next the
right cursor is reset to the left cursor's new position rather than to zero;
and the right-batch scan never reconsiders rows below the right cursor (its
result only depends on the rows from the cursor position on). -/
theorem mergeJoiner_setop_right_cursor_reset :
    (∀ (jt : JoinType) (l : Nat),
        jt = JoinType.intersectAll ∨ jt = JoinType.exceptAll →
        advanceIdx jt l = (l + 1, l + 1))
    ∧ (∀ jt : JoinType,
        jt.isSetOpJoin = true ↔ (jt = JoinType.intersectAll ∨ jt = JoinType.exceptAll))
    ∧ (∀ (render : Row → Row → RenderRes) (jt : JoinType) (eUR : Bool) (lrow : Row)
        (rows1 rows2 : List Row) (k : Nat) (matched : List Nat) (cnt : Nat),
        rows1.length = rows2.length →
        (∀ i, k ≤ i → rows1.getD i [] = rows2.getD i []) →
        scanRight render jt eUR lrow rows1 k matched cnt =
          scanRight render jt eUR lrow rows2 k matched cnt) := by
  refine ⟨?_, ?_, ?_⟩
  · intro jt l h
    rcases h with h | h <;> subst h <;> rfl
  · intro jt
    cases jt <;> simp [JoinType.isSetOpJoin]
  · intro render jt eUR lrow rows1 rows2 k matched cnt hlen hsuff
    exact scanRight_suffix render jt eUR lrow rows1 rows2 k matched cnt hlen hsuff

theorem mergeJoiner_setop_right_cursor_reset_witness :
    advanceIdx JoinType.intersectAll 4 = (5, 5)
    ∧ (JoinType.exceptAll.isSetOpJoin = true ↔
        (JoinType.exceptAll = JoinType.intersectAll ∨ JoinType.exceptAll = JoinType.exceptAll))
    ∧ scanRight (fun _ _ => RenderRes.noRow) JoinType.intersectAll false [] [[some 1]] 1 [] 0 =
        scanRight (fun _ _ => RenderRes.noRow) JoinType.intersectAll false [] [[some 2]] 1 [] 0 :=
  ⟨mergeJoiner_setop_right_cursor_reset.1 JoinType.intersectAll 4 (Or.inl rfl),
   mergeJoiner_setop_right_cursor_reset.2.1 JoinType.exceptAll,
   mergeJoiner_setop_right_cursor_reset.2.2 (fun _ _ => RenderRes.noRow)
     JoinType.intersectAll false [] [[some 1]] [[some 2]] 1 [] 0 rfl
     (by intro i hi; cases i with | zero => omega | succ n => rfl)⟩

/-! ### Scan lemmas for the match/no-match claims -/

theorem scanRight_skipTo (render : Row → Row → RenderRes) (jt : JoinType) (eUR : Bool)
    (lrow : Row) (rows : List Row) (k j : Nat) (matched : List Nat) (cnt : Nat)
    (hkj : k ≤ j) (hj : j ≤ rows.length)
    (hnom : ∀ i, k ≤ i → i < j → render lrow (rows.getD i []) = RenderRes.noRow) :
    scanRight render jt eUR lrow rows k matched cnt =
      scanRight render jt eUR lrow rows j matched cnt := by
  by_cases heq : k = j
  · rw [heq]
  · have hk : k < j := Nat.lt_of_le_of_ne hkj heq
    have hklen : k < rows.length := Nat.lt_of_lt_of_le hk hj
    have step : scanRight render jt eUR lrow rows k matched cnt =
        scanRight render jt eUR lrow rows (k + 1) matched cnt := by
      rw [scanRight]
      simp only [dif_pos hklen, hnom k (Nat.le_refl k) hk]
    rw [step]
    exact scanRight_skipTo render jt eUR lrow rows (k + 1) j matched cnt hk hj
      (fun i hi hij => hnom i (Nat.le_of_succ_le hi) hij)
termination_by j - k
decreasing_by omega

theorem scanRight_match_step (render : Row → Row → RenderRes) (jt : JoinType) (eUR : Bool)
    (lrow : Row) (rows : List Row) (j : Nat) (matched : List Nat) (cnt : Nat) (rr : Row)
    (hj : j < rows.length) (hm : render lrow (rows.getD j []) = RenderRes.row rr) :
    scanRight render jt eUR lrow rows j matched cnt =
      (if jt = JoinType.leftAnti ∨ jt = JoinType.exceptAll then
        ScanRes.antiBreak (j + 1) matched (cnt + 1)
      else
        ScanRes.emit rr
          (if jt = JoinType.leftSemi ∨ jt = JoinType.intersectAll then rows.length else j + 1)
          (if eUR then j :: matched else matched) (cnt + 1)) := by
  rw [scanRight]
  simp only [dif_pos hj, hm]

theorem scanRight_no_match (render : Row → Row → RenderRes) (jt : JoinType) (eUR : Bool)
    (lrow : Row) (rows : List Row) (k : Nat) (matched : List Nat) (cnt : Nat)
    (hk : k ≤ rows.length)
    (hnom : ∀ i, k ≤ i → i < rows.length → render lrow (rows.getD i []) = RenderRes.noRow) :
    scanRight render jt eUR lrow rows k matched cnt =
      ScanRes.exhausted rows.length matched cnt := by
  rw [scanRight_skipTo render jt eUR lrow rows k rows.length matched cnt hk (Nat.le_refl _) hnom]
  rw [scanRight]
  simp

/-! ### C5 -/

/-- C5: for left-semi and intersect-all joins, when the current left row
matches a right row of the current batch (first match at index `j`), the merge
joiner emits exactly one output row for that left row and skips all remaining
right rows: the right cursor jumps to the end of the right batch. -/
theorem mergeJoiner_semi_intersect_emit_once (s : MJCore) (j : Nat) (rr : Row)
    (hjt : s.joinType = JoinType.leftSemi ∨ s.joinType = JoinType.intersectAll)
    (hl : s.leftIdx < s.leftRows.length)
    (hkj : s.rightIdx ≤ j) (hj : j < s.rightRows.length)
    (hnom : ∀ i, s.rightIdx ≤ i → i < j →
        s.render (s.leftRows.getD s.leftIdx []) (s.rightRows.getD i []) = RenderRes.noRow)
    (hm : s.render (s.leftRows.getD s.leftIdx []) (s.rightRows.getD j []) = RenderRes.row rr) :
    nextRow s = NextRowRes.row rr
      { s with rightIdx := s.rightRows.length,
               matchedRight :=
                 if s.emitUnmatchedRight then j :: s.matchedRight else s.matchedRight,
               matchedRightCount := s.matchedRightCount + 1 } := by
  have hscan : scanRight s.render s.joinType s.emitUnmatchedRight
      (s.leftRows.getD s.leftIdx []) s.rightRows s.rightIdx s.matchedRight s.matchedRightCount
      = ScanRes.emit rr s.rightRows.length
          (if s.emitUnmatchedRight then j :: s.matchedRight else s.matchedRight)
          (s.matchedRightCount + 1) := by
    rw [scanRight_skipTo _ _ _ _ _ _ j _ _ hkj (Nat.le_of_lt hj) hnom,
        scanRight_match_step _ _ _ _ _ _ _ _ rr hj hm]
    rcases hjt with h | h <;> rw [h] <;> simp
  rw [nextRow]
  simp only [dif_pos hl, hscan]

theorem mergeJoiner_semi_intersect_emit_once_witness :
    nextRow { mjDemoCore with
                joinType := JoinType.leftSemi,
                render := fun _ r => if r = [some 7] then RenderRes.row [some 9] else RenderRes.noRow,
                leftRows := [[some 1]], rightRows := [[some 5], [some 7], [some 8]] } =
      NextRowRes.row [some 9]
        { mjDemoCore with
            joinType := JoinType.leftSemi,
            render := fun _ r => if r = [some 7] then RenderRes.row [some 9] else RenderRes.noRow,
            leftRows := [[some 1]], rightRows := [[some 5], [some 7], [some 8]],
            rightIdx := 3, matchedRight := [], matchedRightCount := 1 } := by
  have h := mergeJoiner_semi_intersect_emit_once
    { mjDemoCore with
        joinType := JoinType.leftSemi,
        render := fun _ r => if r = [some 7] then RenderRes.row [some 9] else RenderRes.noRow,
        leftRows := [[some 1]], rightRows := [[some 5], [some 7], [some 8]] }
    1 [some 9] (Or.inl rfl) (by decide) (by decide) (by decide)
    (by
      intro i h0 h1
      interval_cases i
      · simp [mjDemoCore])
    (by simp [mjDemoCore])
  simpa [mjDemoCore] using h

/-! ### C3 -/

/-- C3: for left-anti and except-all joins, a left row that matches some right
row of the current batch produces no output row — the scan breaks out right
after the first match (no further right rows are examined) and `nextRow`
proceeds directly to the next left row; a left row with zero matches over the
right batch is emitted as an unmatched row padded for the absent right side
(for left outer, full outer, left anti, except-all). -/
theorem mergeJoiner_anti_exceptAll_no_emit_on_match :
    (∀ (s : MJCore) (j : Nat) (rr : Row),
        s.joinType = JoinType.leftAnti ∨ s.joinType = JoinType.exceptAll →
        s.leftIdx < s.leftRows.length →
        s.rightIdx ≤ j → j < s.rightRows.length →
        (∀ i, s.rightIdx ≤ i → i < j →
            s.render (s.leftRows.getD s.leftIdx []) (s.rightRows.getD i []) = RenderRes.noRow) →
        s.render (s.leftRows.getD s.leftIdx []) (s.rightRows.getD j []) = RenderRes.row rr →
        s.cancel = none →
        scanRight s.render s.joinType s.emitUnmatchedRight (s.leftRows.getD s.leftIdx [])
            s.rightRows s.rightIdx s.matchedRight s.matchedRightCount
          = ScanRes.antiBreak (j + 1) s.matchedRight (s.matchedRightCount + 1)
        ∧ nextRow s = nextRow
            { s with leftIdx := s.leftIdx + 1,
                     rightIdx := if s.joinType.isSetOpJoin then s.leftIdx + 1 else 0,
                     matchedRightCount := 0 })
    ∧ (∀ s : MJCore,
        s.joinType = JoinType.leftOuter ∨ s.joinType = JoinType.fullOuter ∨
          s.joinType = JoinType.leftAnti ∨ s.joinType = JoinType.exceptAll →
        s.leftIdx < s.leftRows.length →
        s.rightIdx ≤ s.rightRows.length →
        s.matchedRightCount = 0 →
        s.cancel = none →
        (∀ i, s.rightIdx ≤ i → i < s.rightRows.length →
            s.render (s.leftRows.getD s.leftIdx []) (s.rightRows.getD i []) = RenderRes.noRow) →
        nextRow s = NextRowRes.row (s.renderUnmatched (s.leftRows.getD s.leftIdx []) Side.left)
          { s with leftIdx := s.leftIdx + 1,
                   rightIdx := if s.joinType.isSetOpJoin then s.leftIdx + 1 else 0,
                   matchedRightCount := 0 }) := by
  constructor
  · intro s j rr hjt hl hkj hj hnom hm hcan
    have hscan : scanRight s.render s.joinType s.emitUnmatchedRight
        (s.leftRows.getD s.leftIdx []) s.rightRows s.rightIdx s.matchedRight s.matchedRightCount
        = ScanRes.antiBreak (j + 1) s.matchedRight (s.matchedRightCount + 1) := by
      rw [scanRight_skipTo _ _ _ _ _ _ j _ _ hkj (Nat.le_of_lt hj) hnom,
          scanRight_match_step _ _ _ _ _ _ _ _ rr hj hm]
      rcases hjt with h | h <;> rw [h] <;> simp
    refine ⟨hscan, ?_⟩
    rw [nextRow]
    simp only [dif_pos hl, hscan, hcan]
    simp [advanceIdx]
  · intro s hjt hl hkle hc0 hcan hnom
    have hscan : scanRight s.render s.joinType s.emitUnmatchedRight
        (s.leftRows.getD s.leftIdx []) s.rightRows s.rightIdx s.matchedRight s.matchedRightCount
        = ScanRes.exhausted s.rightRows.length s.matchedRight s.matchedRightCount :=
      scanRight_no_match _ _ _ _ _ _ _ _ hkle hnom
    have hse : shouldEmitUnmatchedRow Side.left s.joinType = true := by
      rcases hjt with h | h | h | h <;> rw [h] <;> rfl
    rw [nextRow]
    simp only [dif_pos hl, hscan, hcan]
    simp [hc0, hse, advanceIdx]

/-- The anti-join configuration used by the C3 witness. -/
def mjAntiDemo : MJCore :=
  { mjDemoCore with
      joinType := JoinType.leftAnti,
      render := fun _ r => if r = [some 7] then RenderRes.row [some 9] else RenderRes.noRow,
      leftRows := [[some 1], [some 2]], rightRows := [[some 5], [some 7], [some 8]] }

/-- The no-match configuration used by the C3 witness. -/
def mjNoMatchDemo : MJCore :=
  { mjDemoCore with
      joinType := JoinType.leftAnti,
      render := fun _ _ => RenderRes.noRow,
      renderUnmatched := fun r _ => r ++ [none],
      leftRows := [[some 1]], rightRows := [[some 5]] }

theorem mergeJoiner_anti_exceptAll_no_emit_on_match_witness :
    (scanRight mjAntiDemo.render mjAntiDemo.joinType mjAntiDemo.emitUnmatchedRight
        (mjAntiDemo.leftRows.getD mjAntiDemo.leftIdx []) mjAntiDemo.rightRows
        mjAntiDemo.rightIdx mjAntiDemo.matchedRight mjAntiDemo.matchedRightCount
      = ScanRes.antiBreak 2 mjAntiDemo.matchedRight (mjAntiDemo.matchedRightCount + 1)
    ∧ nextRow mjAntiDemo = nextRow
        { mjAntiDemo with leftIdx := mjAntiDemo.leftIdx + 1,
                          rightIdx := if mjAntiDemo.joinType.isSetOpJoin
                                      then mjAntiDemo.leftIdx + 1 else 0,
                          matchedRightCount := 0 })
    ∧ nextRow mjNoMatchDemo =
        NextRowRes.row
          (mjNoMatchDemo.renderUnmatched
            (mjNoMatchDemo.leftRows.getD mjNoMatchDemo.leftIdx []) Side.left)
          { mjNoMatchDemo with leftIdx := mjNoMatchDemo.leftIdx + 1,
                               rightIdx := if mjNoMatchDemo.joinType.isSetOpJoin
                                           then mjNoMatchDemo.leftIdx + 1 else 0,
                               matchedRightCount := 0 } :=
  ⟨mergeJoiner_anti_exceptAll_no_emit_on_match.1 mjAntiDemo 1 [some 9]
      (Or.inl rfl) (by decide) (by decide) (by decide)
      (by
        intro i h0 h1
        interval_cases i
        · simp [mjAntiDemo, mjDemoCore])
      (by simp [mjAntiDemo, mjDemoCore]) rfl,
   mergeJoiner_anti_exceptAll_no_emit_on_match.2 mjNoMatchDemo
      (Or.inr (Or.inr (Or.inl rfl))) (by decide) (by decide) rfl rfl
      (by intro i h0 h1; simp [mjNoMatchDemo, mjDemoCore])⟩

/-! ### C2 -/

/-- The handshake invariant maintained by the registry model: a connected
producer has been sent exactly the handshakes [scheduled] or
[not-scheduled, scheduled]; a pending producer has been sent exactly
[not-scheduled]; a producer that is not connected has been sent at most one
handshake, and none before its first `ConnectInboundStream`. -/
def RegInv (s : RegState) : Prop :=
  (s.connected = true → s.handshakes = [true] ∨ s.handshakes = [false, true])
  ∧ (s.pending = true →
      s.handshakes = [false] ∧ s.connected = false ∧ s.registered = false ∧ s.attempted = true)
  ∧ (s.connected = false → s.handshakes = [] ∨ s.handshakes = [false])
  ∧ (s.attempted = false → s.handshakes = [])

theorem regStep_inv (s : RegState) (e : RegEv) (h : RegInv s) : RegInv (regStep s e) := by
  obtain ⟨h1, h2, h3, h4⟩ := h
  cases e with
  | register =>
    simp only [regStep]
    by_cases hreg : s.registered
    · simp only [if_pos hreg]
      exact ⟨h1, h2, h3, h4⟩
    · simp only [if_neg hreg]
      by_cases hpend : s.pending
      · simp only [if_pos hpend]
        obtain ⟨hhs, _, _, hatt⟩ := h2 hpend
        refine ⟨?_, ?_, ?_, ?_⟩ <;> simp [hhs, hatt]
      · simp only [if_neg hpend]
        refine ⟨h1, ?_, h3, h4⟩
        intro hp
        simp at hp
        exact absurd hp hpend
  | connect =>
    simp only [regStep]
    by_cases hatt : s.attempted
    · simp only [if_pos hatt]
      exact ⟨h1, h2, h3, h4⟩
    · have hattF : s.attempted = false := by simpa using hatt
      have hhs : s.handshakes = [] := h4 hattF
      have hconnF : s.connected = false := by
        cases hc : s.connected with
        | false => rfl
        | true => rcases h1 hc with hx | hx <;> simp [hx] at hhs
      have hpendF : s.pending = false := by
        cases hp : s.pending with
        | false => rfl
        | true => rw [(h2 hp).2.2.2] at hattF; cases hattF
      simp only [if_neg hatt]
      by_cases hcanc : s.canceled
      · simp only [if_pos hcanc]
        refine ⟨?_, ?_, ?_, ?_⟩ <;> simp [hhs, hconnF, hpendF]
      · simp only [if_neg hcanc]
        by_cases hreg : s.registered
        · simp only [if_pos hreg]
          refine ⟨?_, ?_, ?_, ?_⟩ <;> simp [hhs, hpendF]
        · have hregF : s.registered = false := by simpa using hreg
          simp only [if_neg hreg]
          refine ⟨?_, ?_, ?_, ?_⟩ <;> simp [hhs, hconnF, hregF]
  | streamTimerFire =>
    simp only [regStep]
    by_cases hcond : s.registered = true ∧ ¬s.connected = true ∧ ¬s.pending = true
    · simp only [if_pos hcond]
      exact ⟨h1, h2, h3, h4⟩
    · simp only [if_neg hcond]
      exact ⟨h1, h2, h3, h4⟩
  | connectTimeout =>
    simp only [regStep]
    by_cases hpend : s.pending
    · simp only [if_pos hpend]
      obtain ⟨hhs, hconn, hregF, hattT⟩ := h2 hpend
      refine ⟨?_, ?_, ?_, ?_⟩ <;> simp [hhs, hconn, hattT]
    · simp only [if_neg hpend]
      exact ⟨h1, h2, h3, h4⟩

theorem regFold_inv (evs : List RegEv) :
    ∀ s : RegState, RegInv s → RegInv (evs.foldl regStep s) := by
  induction evs with
  | nil => intro s h; exact h
  | cons e rest ih =>
    intro s h
    exact ih (regStep s e) (regStep_inv s e h)

theorem regInit_inv : RegInv regInit := by
  refine ⟨?_, ?_, ?_, ?_⟩ <;> simp [regInit]

/-- C2: in every linearized run of the registry model, a producer whose
stream became connected has received exactly one or exactly two handshake
messages — never zero, never more — the first reflecting the
consumer-scheduled status at the instant of `ConnectInboundStream` and the
second (if any) sent when the consumer became connected; in particular a
`ConnectInboundStream` arriving before `RegisterFlow` receives exactly the
two handshakes [not-scheduled, scheduled] when the flow registers in time,
and one arriving after `RegisterFlow` exactly [scheduled]. -/
theorem flowRegistry_handshake_counts :
    (∀ evs : List RegEv, (regRun evs).connected = true →
        (regRun evs).handshakes = [true] ∨ (regRun evs).handshakes = [false, true])
    ∧ (regRun [RegEv.connect, RegEv.register]).handshakes = [false, true]
    ∧ (regRun [RegEv.register, RegEv.connect]).handshakes = [true] := by
  refine ⟨?_, by decide, by decide⟩
  intro evs hconn
  exact (regFold_inv evs regInit regInit_inv).1 hconn

theorem flowRegistry_handshake_counts_witness :
    (regRun [RegEv.connect, RegEv.register]).handshakes = [true] ∨
      (regRun [RegEv.connect, RegEv.register]).handshakes = [false, true] :=
  flowRegistry_handshake_counts.1 [RegEv.connect, RegEv.register] (by decide)

/-! ### C7 -/

theorem outboxLoop_skip_batches (pre tail : List OutboxInputStep)
    (hpre : ∀ b ∈ pre, ∃ n, b = OutboxInputStep.batch (n + 1)) :
    outboxLoop (pre ++ tail) = outboxLoop tail := by
  induction pre with
  | nil => rfl
  | cons b rest ih =>
    obtain ⟨n, hb⟩ := hpre b (List.mem_cons_self b rest)
    subst hb
    rw [List.cons_append]
    rw [show outboxLoop (OutboxInputStep.batch (n + 1) :: (rest ++ tail)) =
          outboxLoop (rest ++ tail) from rfl]
    exact ih (fun x hx => hpre x (List.mem_cons_of_mem _ hx))

theorem flatten_no_err_filter (ms : List (List Meta))
    (hms : ∀ l ∈ ms, ∀ m ∈ l, m.err = none) :
    ms.flatten.filter (fun m => m.err.isSome) = [] := by
  rw [List.filter_eq_nil_iff]
  intro m hm
  obtain ⟨l, hl, hml⟩ := List.mem_flatten.mp hm
  rw [hms l hl m hml]
  simp

/-- C7: when the outbox's input panics with a vectorized-engine stack origin,
the outbox does not propagate the panic to its caller and delivers exactly one
error metadata on the stream (what the paired inbox's `DrainMeta` observes);
and on every run that does not re-raise a panic — successful or after such an
error — it invokes the drain callback of every registered metadata source. -/
theorem outbox_panic_drains_metadata_sources :
    (∀ (pre : List OutboxInputStep) (stack : List String) (payload : PanicObj)
        (next : String) (rest : List String) (ms : List (List Meta)),
      (∀ b ∈ pre, ∃ n, b = OutboxInputStep.batch (n + 1)) →
      findPanicLine stack = some (next :: rest) →
      isPanicFromVectorizedEngine (trimSpace next) = true →
      (∀ l ∈ ms, ∀ m ∈ l, m.err = none) →
      (outboxRun (pre ++ [OutboxInputStep.panics stack payload]) ms).propagated = none
      ∧ ((outboxRun (pre ++ [OutboxInputStep.panics stack payload]) ms).sentMeta.filter
            (fun m => m.err.isSome)).length = 1
      ∧ (outboxRun (pre ++ [OutboxInputStep.panics stack payload]) ms).drainedSources
          = ms.length)
    ∧ (∀ (input : List OutboxInputStep) (ms : List (List Meta)),
        (outboxRun input ms).propagated = none →
        (outboxRun input ms).drainedSources = ms.length) := by
  constructor
  · intro pre stack payload next rest ms hpre h1 h2 hms
    have hloop : outboxLoop (pre ++ [OutboxInputStep.panics stack payload])
        = OutboxLoopEnd.errored (caughtErrMsg payload) := by
      rw [outboxLoop_skip_batches pre _ hpre]
      show (match CatchVectorizedRuntimeError (OpOutcome.panicked stack payload) with
        | CatchResult.ret (some e) => OutboxLoopEnd.errored e
        | CatchResult.ret none => OutboxLoopEnd.clean
        | CatchResult.repanicked p => OutboxLoopEnd.panicked p
        | CatchResult.internalFailure msg =>
            OutboxLoopEnd.panicked (PanicObj.other msg)) = _
      rw [catch_vectorized_caught stack payload next rest h1 h2]
    unfold outboxRun
    rw [hloop]
    refine ⟨rfl, ?_, rfl⟩
    simp [errMeta, List.filter, flatten_no_err_filter ms hms]
  · intro input ms hprop
    unfold outboxRun at hprop ⊢
    cases houtcome : outboxLoop input with
    | clean => rfl
    | errored e => rfl
    | panicked p => rw [houtcome] at hprop; cases hprop

/-- A metadata source like the one in `TestOutboxDrainsMetadataSources`:
its callback yields no metadata. -/
def demoMetaSources : List (List Meta) := [[]]

theorem outbox_panic_drains_metadata_sources_witness :
    (outboxRun [OutboxInputStep.panics vecStack (PanicObj.other "boom")]
        demoMetaSources).propagated = none
    ∧ ((outboxRun [OutboxInputStep.panics vecStack (PanicObj.other "boom")]
        demoMetaSources).sentMeta.filter (fun m => m.err.isSome)).length = 1
    ∧ (outboxRun [OutboxInputStep.panics vecStack (PanicObj.other "boom")]
        demoMetaSources).drainedSources = demoMetaSources.length :=
  outbox_panic_drains_metadata_sources.1 []
    vecStack (PanicObj.other "boom")
    " github.com/cockroachdb/cockroach/pkg/sql/exec/mergejoiner.go:55" []
    demoMetaSources (by intro b hb; cases hb) (by decide) (by decide)
    (by intro l hl m hm; simp [demoMetaSources] at hl; subst hl; cases hm)

/-! ### C1 helper lemmas -/

theorem moveToDraining_state_running (e : Option Err) (p : ProcState)
    (hp : p.state = PState.running) :
    (moveToDraining e p).state = PState.draining := by
  simp [moveToDraining, hp]

theorem popTrailing_some_state (p : ProcState) (m : Meta)
    (h : (popTrailing p).1 = some m) :
    (popTrailing p).2.state = p.state := by
  cases ht : p.trailingMeta with
  | nil => simp [popTrailing, ht] at h
  | cons a rest => simp [popTrailing, ht]

theorem drainHelper_some_draining (p : ProcState) (m : Meta)
    (h : (drainHelper p).1 = some m) :
    (drainHelper p).2.state = PState.draining := by
  unfold drainHelper at *
  cases hs : p.state with
  | running =>
    simp only [hs] at h ⊢
    rw [popTrailing_some_state _ m h, moveToDraining_state_running none p hs]
  | draining =>
    simp only [hs] at h ⊢
    rw [popTrailing_some_state _ m h, hs]
  | exhausted =>
    simp only [hs] at h
    simp at h

theorem drainHelper_not_running (p : ProcState) (h : ¬ p.state = PState.running) :
    ¬ (drainHelper p).2.state = PState.running := by
  unfold drainHelper
  cases hs : p.state with
  | running => exact absurd hs h
  | draining =>
    unfold popTrailing
    cases p.trailingMeta with
    | nil => simp
    | cons a rest => simp [hs]
  | exhausted => simp [hs]


theorem mjNext_err_draining (s : MJFull) (m : Meta)
    (hm : (mjNext s).1.2 = some m) (herr : m.err.isSome = true) :
    (mjNext s).2.proc.state = PState.draining := by
  unfold mjNext at hm ⊢
  by_cases hrun : s.proc.state = PState.running
  · rw [if_pos hrun] at hm ⊢
    cases hnr : nextRow s.core with
    | meta mm c =>
      rw [hnr] at hm
      dsimp only at hm ⊢
      have hmm : mm = m := by simpa using hm
      subst hmm
      simp only [herr, if_true]
      exact moveToDraining_state_running none s.proc hrun
    | row r c =>
      rw [hnr] at hm
      dsimp only at hm
      cases hm
    | finished c =>
      rw [hnr] at hm
      dsimp only at hm ⊢
      exact drainHelper_some_draining _ m hm
  · rw [if_neg hrun] at hm ⊢
    exact drainHelper_some_draining s.proc m hm

theorem mjNext_notRunning (s : MJFull) (h : ¬ s.proc.state = PState.running) :
    (mjNext s).1.1 = none ∧ ¬ (mjNext s).2.proc.state = PState.running := by
  unfold mjNext
  rw [if_neg h]
  exact ⟨rfl, drainHelper_not_running s.proc h⟩

theorem psIter_inr_proc (s s2 : PSState) (h : psIter s = Sum.inr s2) :
    s2.proc = s.proc := by
  unfold psIter at h
  by_cases hc : (s.emitCount + 1) % cancelCheckCount = 0 ∧ s.ctxErr.isSome = true
  · rw [if_pos hc] at h
    simp at h
  · rw [if_neg hc] at h
    by_cases hr : s.inputRowReady = true
    · rw [if_pos hr] at h
      cases hg : nextGenVals s.slots s.numInputCols s.rowBuffer false with
      | error e => rw [hg] at h; simp at h
      | ok t =>
        rw [hg] at h
        obtain ⟨avail, buf2, slots2⟩ := t
        by_cases ha : avail = true
        · simp [ha] at h
        · simp [ha] at h
          subst h
          rfl
    · rw [if_neg hr] at h
      cases hin : s.input with
      | nil => rw [hin] at h; simp at h
      | cons head rest =>
        rw [hin] at h
        cases head with
        | eof => simp at h
        | meta mm => simp at h
        | row r =>
          simp only at h
          cases hi : initGens s.slots r with
          | error e => rw [hi] at h; simp at h
          | ok slots1 =>
            rw [hi] at h
            dsimp only at h
            cases hg : nextGenVals slots1 s.numInputCols (copyPrefix r s.rowBuffer) false with
            | error e => rw [hg] at h; simp at h
            | ok t =>
              rw [hg] at h
              obtain ⟨avail, buf2, slots2⟩ := t
              by_cases ha : avail = true
              · simp [ha] at h
              · simp [ha] at h
                subst h
                rfl

theorem psIter_inl_err (s : PSState) (a : Option Row) (b : Option Meta) (s2 : PSState)
    (h : psIter s = Sum.inl ((a, b), s2)) (m : Meta) (hm : b = some m)
    (herr : m.err.isSome = true) (hrun : s.proc.state = PState.running) :
    s2.proc.state = PState.draining := by
  unfold psIter at h
  by_cases hc : (s.emitCount + 1) % cancelCheckCount = 0 ∧ s.ctxErr.isSome = true
  · rw [if_pos hc] at h
    simp only [Sum.inl.injEq, Prod.mk.injEq] at h
    obtain ⟨⟨ha2, hb2⟩, hs2⟩ := h
    subst hs2
    exact drainHelper_some_draining _ m (hb2.trans hm)
  · rw [if_neg hc] at h
    by_cases hr : s.inputRowReady = true
    · rw [if_pos hr] at h
      cases hg : nextGenVals s.slots s.numInputCols s.rowBuffer false with
      | error e =>
        rw [hg] at h
        simp only [Sum.inl.injEq, Prod.mk.injEq] at h
        obtain ⟨⟨ha2, hb2⟩, hs2⟩ := h
        subst hs2
        exact drainHelper_some_draining _ m (hb2.trans hm)
      | ok t =>
        rw [hg] at h
        obtain ⟨avail, buf2, slots2⟩ := t
        by_cases hav : avail = true
        · simp only [hav, if_true, Sum.inl.injEq, Prod.mk.injEq] at h
          obtain ⟨⟨ha2, hb2⟩, hs2⟩ := h
          rw [← hb2] at hm
          cases hm
        · simp [hav] at h
    · rw [if_neg hr] at h
      cases hin : s.input with
      | nil =>
        rw [hin] at h
        simp only [Sum.inl.injEq, Prod.mk.injEq] at h
        obtain ⟨⟨ha2, hb2⟩, hs2⟩ := h
        subst hs2
        exact drainHelper_some_draining _ m (hb2.trans hm)
      | cons head rest =>
        rw [hin] at h
        cases head with
        | eof =>
          simp only [Sum.inl.injEq, Prod.mk.injEq] at h
          obtain ⟨⟨ha2, hb2⟩, hs2⟩ := h
          subst hs2
          exact drainHelper_some_draining _ m (hb2.trans hm)
        | meta mm =>
          simp only [Sum.inl.injEq, Prod.mk.injEq] at h
          obtain ⟨⟨ha2, hb2⟩, hs2⟩ := h
          subst hs2
          have hmm : mm = m := by
            rw [← hb2] at hm
            exact Option.some.inj hm
          subst hmm
          simp only [herr, if_true]
          exact moveToDraining_state_running none s.proc hrun
        | row r =>
          simp only at h
          cases hi : initGens s.slots r with
          | error e =>
            rw [hi] at h
            simp only [Sum.inl.injEq, Prod.mk.injEq] at h
            obtain ⟨⟨ha2, hb2⟩, hs2⟩ := h
            subst hs2
            exact drainHelper_some_draining _ m (hb2.trans hm)
          | ok slots1 =>
            rw [hi] at h
            dsimp only at h
            cases hg : nextGenVals slots1 s.numInputCols (copyPrefix r s.rowBuffer) false with
            | error e =>
              rw [hg] at h
              simp only [Sum.inl.injEq, Prod.mk.injEq] at h
              obtain ⟨⟨ha2, hb2⟩, hs2⟩ := h
              subst hs2
              exact drainHelper_some_draining _ m (hb2.trans hm)
            | ok t =>
              rw [hg] at h
              obtain ⟨avail, buf2, slots2⟩ := t
              by_cases hav : avail = true
              · simp only [hav, if_true, Sum.inl.injEq, Prod.mk.injEq] at h
                obtain ⟨⟨ha2, hb2⟩, hs2⟩ := h
                rw [← hb2] at hm
                cases hm
              · simp [hav] at h

theorem psNextLoop_eq_inl (s : PSState) (r : (Option Row × Option Meta) × PSState)
    (h : psIter s = Sum.inl r) : psNextLoop s = r := by
  rw [psNextLoop]
  split
  · rename_i r2 heq
    rw [h] at heq
    exact (Sum.inl.inj heq).symm
  · rename_i s2 heq
    rw [h] at heq
    cases heq

theorem psNextLoop_eq_inr (s s2 : PSState) (h : psIter s = Sum.inr s2) :
    psNextLoop s = psNextLoop s2 := by
  rw [psNextLoop]
  split
  · rename_i r2 heq
    rw [h] at heq
    cases heq
  · rename_i s3 heq
    rw [h] at heq
    rw [Sum.inr.inj heq]

theorem psNextLoop_err_draining (s : PSState) :
    ∀ m : Meta, (psNextLoop s).1.2 = some m → m.err.isSome = true →
      s.proc.state = PState.running →
      ((psNextLoop s).2).proc.state = PState.draining := by
  induction s using psNextLoop.induct with
  | case1 x r h =>
    intro m hm herr hrun
    rw [psNextLoop_eq_inl x r h] at hm ⊢
    exact psIter_inl_err x r.1.1 r.1.2 r.2 h m hm herr hrun
  | case2 x s2 h ih =>
    intro m hm herr hrun
    rw [psNextLoop_eq_inr x s2 h] at hm ⊢
    refine ih m hm herr ?_
    rw [psIter_inr_proc x s2 h]
    exact hrun

theorem psNext_err_draining (s : PSState) (m : Meta)
    (hm : (psNext s).1.2 = some m) (herr : m.err.isSome = true) :
    (psNext s).2.proc.state = PState.draining := by
  unfold psNext at hm ⊢
  by_cases hrun : s.proc.state = PState.running
  · rw [if_pos hrun] at hm ⊢
    exact psNextLoop_err_draining s m hm herr hrun
  · rw [if_neg hrun] at hm ⊢
    exact drainHelper_some_draining s.proc m hm

theorem psNext_notRunning (s : PSState) (h : ¬ s.proc.state = PState.running) :
    (psNext s).1.1 = none ∧ ¬ (psNext s).2.proc.state = PState.running := by
  unfold psNext
  rw [if_neg h]
  exact ⟨rfl, drainHelper_not_running s.proc h⟩

/-! ### C1 -/

/-- C1: for both processors (merge joiner and project-set), once a call to
`Next()` returns a metadata unit whose Err field is non-nil, the processor is
in the Draining state, and no subsequent call to `Next()` ever returns a
result row — every later non-nil return is metadata only, until (nil, nil). -/
theorem processors_error_metadata_moves_to_draining :
    (∀ (s : MJFull) (n : Nat) (m : Meta),
        (mjOut s n).2 = some m → m.err.isSome = true →
        (mjStates s (n + 1)).proc.state = PState.draining ∧
          ∀ k, n < k → (mjOut s k).1 = none)
    ∧ (∀ (s : PSState) (n : Nat) (m : Meta),
        (psOut s n).2 = some m → m.err.isSome = true →
        (psStates s (n + 1)).proc.state = PState.draining ∧
          ∀ k, n < k → (psOut s k).1 = none) := by
  constructor
  · intro s n m hm herr
    have hdr : (mjStates s (n + 1)).proc.state = PState.draining :=
      mjNext_err_draining (mjStates s n) m hm herr
    refine ⟨hdr, ?_⟩
    have hnot : ∀ d, ¬ (mjStates s (n + 1 + d)).proc.state = PState.running := by
      intro d
      induction d with
      | zero => rw [Nat.add_zero, hdr]; simp
      | succ d ih =>
        have hstep := (mjNext_notRunning (mjStates s (n + 1 + d)) ih).2
        rw [Nat.add_succ]
        exact hstep
    intro k hk
    obtain ⟨d, rfl⟩ : ∃ d, k = n + 1 + d := ⟨k - (n + 1), by omega⟩
    exact (mjNext_notRunning _ (hnot d)).1
  · intro s n m hm herr
    have hdr : (psStates s (n + 1)).proc.state = PState.draining :=
      psNext_err_draining (psStates s n) m hm herr
    refine ⟨hdr, ?_⟩
    have hnot : ∀ d, ¬ (psStates s (n + 1 + d)).proc.state = PState.running := by
      intro d
      induction d with
      | zero => rw [Nat.add_zero, hdr]; simp
      | succ d ih =>
        have hstep := (psNext_notRunning (psStates s (n + 1 + d)) ih).2
        rw [Nat.add_succ]
        exact hstep
    intro k hk
    obtain ⟨d, rfl⟩ : ∃ d, k = n + 1 + d := ⟨k - (n + 1), by omega⟩
    exact (psNext_notRunning _ (hnot d)).1

/-- A running processor-base state with no pending trailing metadata. -/
def runningProc : ProcState :=
  { state := PState.running, trailingMeta := [], inputDrainMeta := [], callbackMeta := [] }

/-- A merge joiner whose merger immediately yields an error metadata. -/
def mjErrDemo : MJFull :=
  ⟨{ mjDemoCore with merger := [MergerOut.meta (errMeta "boom")] }, runningProc⟩

/-- A project-set processor whose input immediately yields an error metadata. -/
def psErrDemo : PSState :=
  { proc := runningProc, ctxErr := none, emitCount := 0, inputRowReady := false,
    rowBuffer := [], slots := [], input := [PSInputOut.meta (errMeta "boom")],
    numInputCols := 0 }

theorem mjErrDemo_out : (mjOut mjErrDemo 0).2 = some (errMeta "boom") := by
  have hnr : nextRow mjErrDemo.core = NextRowRes.meta (errMeta "boom")
      { mjErrDemo.core with merger := [], leftRows := [], rightRows := [] } := by
    rw [nextRow]
    simp [mjErrDemo, mjDemoCore]
  unfold mjOut mjStates mjNext
  rw [if_pos (show mjErrDemo.proc.state = PState.running from rfl), hnr]

/-- The state of `psErrDemo` after its first `Next` call. -/
def psErrDemoAfter : PSState :=
  { proc := { state := PState.draining, trailingMeta := [], inputDrainMeta := [],
              callbackMeta := [] },
    ctxErr := none, emitCount := 1, inputRowReady := false,
    rowBuffer := [], slots := [], input := [], numInputCols := 0 }

theorem psErrDemo_out : (psOut psErrDemo 0).2 = some (errMeta "boom") := by
  have hit : psIter psErrDemo = Sum.inl ((none, some (errMeta "boom")), psErrDemoAfter) := by
    rfl
  unfold psOut psStates psNext
  rw [if_pos (show psErrDemo.proc.state = PState.running from rfl),
      psNextLoop_eq_inl _ _ hit]

theorem processors_error_metadata_moves_to_draining_witness :
    ((mjStates mjErrDemo 1).proc.state = PState.draining ∧ (mjOut mjErrDemo 5).1 = none)
    ∧ ((psStates psErrDemo 1).proc.state = PState.draining ∧ (psOut psErrDemo 5).1 = none) :=
  ⟨⟨(processors_error_metadata_moves_to_draining.1 mjErrDemo 0 (errMeta "boom")
        mjErrDemo_out rfl).1,
    (processors_error_metadata_moves_to_draining.1 mjErrDemo 0 (errMeta "boom")
        mjErrDemo_out rfl).2 5 (by omega)⟩,
   ⟨(processors_error_metadata_moves_to_draining.2 psErrDemo 0 (errMeta "boom")
        psErrDemo_out rfl).1,
    (processors_error_metadata_moves_to_draining.2 psErrDemo 0 (errMeta "boom")
        psErrDemo_out rfl).2 5 (by omega)⟩⟩

/-! ### C10 helper lemmas -/

theorem psNext_cancel_fires (s : PSState) (e : Err)
    (hrun : s.proc.state = PState.running) (hctx : s.ctxErr = some e)
    (hmod : (s.emitCount + 1) % cancelCheckCount = 0) :
    psNext s = ((none, some (errMeta e)),
      { s with emitCount := s.emitCount + 1,
               proc := { state := PState.draining,
                         trailingMeta := s.proc.inputDrainMeta ++ s.proc.callbackMeta,
                         inputDrainMeta := s.proc.inputDrainMeta,
                         callbackMeta := s.proc.callbackMeta } }) := by
  have hit : psIter s = Sum.inl ((none, some (errMeta e)),
      { s with emitCount := s.emitCount + 1,
               proc := { state := PState.draining,
                         trailingMeta := s.proc.inputDrainMeta ++ s.proc.callbackMeta,
                         inputDrainMeta := s.proc.inputDrainMeta,
                         callbackMeta := s.proc.callbackMeta } }) := by
    unfold psIter
    rw [if_pos ⟨hmod, by rw [hctx]; rfl⟩]
    rw [hctx]
    simp [moveToDraining, hrun, drainHelper, popTrailing]
  unfold psNext
  rw [if_pos hrun, psNextLoop_eq_inl _ _ hit]

theorem psNext_no_check_emits (s : PSState) (buf2 : List Val) (slots2 : List Slot)
    (hrun : s.proc.state = PState.running)
    (hmod : ¬ (s.emitCount + 1) % cancelCheckCount = 0)
    (hready : s.inputRowReady = true)
    (hgen : nextGenVals s.slots s.numInputCols s.rowBuffer false
        = Except.ok (true, buf2, slots2)) :
    psNext s = ((some buf2, none),
      { s with emitCount := s.emitCount + 1, rowBuffer := buf2, slots := slots2 }) := by
  have hit : psIter s = Sum.inl ((some buf2, none),
      { s with emitCount := s.emitCount + 1, rowBuffer := buf2, slots := slots2 }) := by
    unfold psIter
    rw [if_neg (fun hand => hmod hand.1), if_pos hready, hgen]
    rfl
  unfold psNext
  rw [if_pos hrun, psNextLoop_eq_inl _ _ hit]

/-- A single set-generating slot producing `cancelCheckCount` one-column
tuples for an input row. -/
def demoSlot : Slot :=
  { eval := fun _ => Except.ok none,
    genF := some (fun _ => Except.ok (List.replicate cancelCheckCount [some 0])),
    numCols := 1, gen := none, done := false }

/-- A project-set processor over a canceled context whose single input row
fans out into `cancelCheckCount` generated rows. -/
def psCancelDemo : PSState :=
  { proc := runningProc, ctxErr := some "query canceled", emitCount := 0,
    inputRowReady := false, rowBuffer := [none], slots := [demoSlot],
    input := [PSInputOut.row []], numInputCols := 0 }

/-- The state of `psCancelDemo` after `k` calls to `Next` (for
`1 ≤ k ≤ cancelCheckCount - 1`). -/
def psCancelAfter (k : Nat) : PSState :=
  { proc := runningProc, ctxErr := some "query canceled", emitCount := k,
    inputRowReady := true, rowBuffer := [some 0],
    slots := [{ demoSlot with
                  gen := some (List.replicate (cancelCheckCount - k) [some 0]),
                  done := false }],
    input := [], numInputCols := 0 }

theorem psCancel_step0 : psNext psCancelDemo = ((some [some 0], none), psCancelAfter 1) := by
  have hit : psIter psCancelDemo = Sum.inl ((some [some 0], none), psCancelAfter 1) := by
    rfl
  unfold psNext
  rw [if_pos (show psCancelDemo.proc.state = PState.running from rfl),
      psNextLoop_eq_inl _ _ hit]

theorem psCancel_step (k : Nat) (h1 : 1 ≤ k) (h2 : k < cancelCheckCount - 1) :
    psNext (psCancelAfter k) = ((some [some 0], none), psCancelAfter (k + 1)) := by
  have hcc : cancelCheckCount = 10000 := rfl
  have hmod : ¬ ((psCancelAfter k).emitCount + 1) % cancelCheckCount = 0 := by
    show ¬ (k + 1) % cancelCheckCount = 0
    rw [Nat.mod_eq_of_lt (by omega)]
    omega
  have hrep : List.replicate (cancelCheckCount - k) ([some 0] : List Val)
      = [some 0] :: List.replicate (cancelCheckCount - (k + 1)) [some 0] := by
    rw [show cancelCheckCount - k = (cancelCheckCount - (k + 1)) + 1 by omega,
        List.replicate_succ]
  have hgen : nextGenVals (psCancelAfter k).slots (psCancelAfter k).numInputCols
      (psCancelAfter k).rowBuffer false
      = Except.ok (true, [some 0],
          [{ demoSlot with
               gen := some (List.replicate (cancelCheckCount - (k + 1)) [some 0]),
               done := false }]) := by
    show nextGenVals
        [{ demoSlot with gen := some (List.replicate (cancelCheckCount - k) [some 0]),
                         done := false }] 0 [some 0] false = _
    rw [hrep]
    rfl
  have := psNext_no_check_emits (psCancelAfter k) [some 0]
      [{ demoSlot with gen := some (List.replicate (cancelCheckCount - (k + 1)) [some 0]),
                       done := false }] rfl hmod rfl hgen
  rw [this]
  rfl

theorem psCancel_state (k : Nat) (h1 : 1 ≤ k) (h2 : k ≤ cancelCheckCount - 1) :
    psStates psCancelDemo k = psCancelAfter k := by
  induction k with
  | zero => omega
  | succ k ih =>
    by_cases hk : k = 0
    · subst hk
      show (psNext (psStates psCancelDemo 0)).2 = psCancelAfter 1
      show (psNext psCancelDemo).2 = psCancelAfter 1
      rw [psCancel_step0]
    · have hk1 : 1 ≤ k := by omega
      have hk2 : k ≤ cancelCheckCount - 1 := by omega
      have hklt : k < cancelCheckCount - 1 := by
        have hcc : cancelCheckCount = 10000 := rfl
        omega
      show (psNext (psStates psCancelDemo k)).2 = psCancelAfter (k + 1)
      rw [ih hk1 hk2, psCancel_step k hk1 hklt]

theorem psCancel_final :
    psNext (psCancelAfter (cancelCheckCount - 1))
      = ((none, some (errMeta "query canceled")),
        { psCancelAfter (cancelCheckCount - 1) with
            emitCount := cancelCheckCount,
            proc := { state := PState.draining, trailingMeta := [],
                      inputDrainMeta := [], callbackMeta := [] } }) := by
  have h := psNext_cancel_fires (psCancelAfter (cancelCheckCount - 1)) "query canceled"
    rfl rfl (by rw [show (psCancelAfter (cancelCheckCount - 1)).emitCount + 1
                      = cancelCheckCount from rfl, Nat.mod_self])
  rw [h]
  rfl

theorem psStates_succ (s : PSState) (n : Nat) :
    psStates s (n + 1) = (psNext (psStates s n)).2 := rfl

/-! ### C10 -/

theorem c10_part3 (k : Nat) (hk : k < cancelCheckCount - 1) :
    (psOut psCancelDemo k).1 = some [some 0] := by
  by_cases hk0 : k = 0
  · subst hk0
    show (psNext (psStates psCancelDemo 0)).1.1 = some [some 0]
    show (psNext psCancelDemo).1.1 = some [some 0]
    rw [psCancel_step0]
  · have h1 : 1 ≤ k := by omega
    have h2 : k ≤ cancelCheckCount - 1 := by omega
    show (psNext (psStates psCancelDemo k)).1.1 = some [some 0]
    rw [psCancel_state k h1 h2, psCancel_step k h1 hk]

theorem psOut_eq (s : PSState) (n : Nat) :
    psOut s n = (psNext (psStates s n)).1 := rfl

theorem c10_part4 :
    psOut psCancelDemo (cancelCheckCount - 1) = (none, some (errMeta "query canceled")) := by
  rw [psOut_eq,
      psCancel_state (cancelCheckCount - 1) (by decide) (Nat.le_refl _), psCancel_final]

theorem c10_part5 :
    (psStates psCancelDemo cancelCheckCount).proc.state = PState.draining := by
  have hsucc : cancelCheckCount = (cancelCheckCount - 1) + 1 := rfl
  rw [hsucc, psStates_succ,
      psCancel_state (cancelCheckCount - 1) (by decide) (Nat.le_refl _), psCancel_final]

/-! ### C10 -/

/-- C10: `projectSetProcessor.Next` checks context cancellation only when its
emit counter (incremented once per loop iteration) reaches a multiple of
`cancelCheckCount` = 10000: at a multiple with a canceled context the call
drains with the cancellation error; off the multiples a canceled context has
no effect and a row is still returned; consequently, in a run whose calls
each perform one loop iteration, 9999 consecutive `Next` calls still return
rows after cancellation and the 10000th call drains. -/
theorem projectSet_cancellation_check_period :
    (∀ (s : PSState) (e : Err),
        s.proc.state = PState.running → s.ctxErr = some e →
        (s.emitCount + 1) % cancelCheckCount = 0 →
        (psNext s).1 = (none, some (errMeta e)) ∧
          (psNext s).2.proc.state = PState.draining)
    ∧ (∀ (s : PSState) (buf2 : List Val) (slots2 : List Slot),
        s.proc.state = PState.running →
        ¬ (s.emitCount + 1) % cancelCheckCount = 0 →
        s.inputRowReady = true →
        nextGenVals s.slots s.numInputCols s.rowBuffer false
          = Except.ok (true, buf2, slots2) →
        (psNext s).1 = (some buf2, none) ∧
          (psNext s).2.proc.state = PState.running)
    ∧ (∀ k, k < cancelCheckCount - 1 → (psOut psCancelDemo k).1 = some [some 0])
    ∧ psOut psCancelDemo (cancelCheckCount - 1)
        = (none, some (errMeta "query canceled"))
    ∧ (psStates psCancelDemo cancelCheckCount).proc.state = PState.draining := by
  refine ⟨?_, ?_, c10_part3, c10_part4, c10_part5⟩
  · intro s e hrun hctx hmod
    rw [psNext_cancel_fires s e hrun hctx hmod]
    exact ⟨rfl, rfl⟩
  · intro s buf2 slots2 hrun hmod hready hgen
    rw [psNext_no_check_emits s buf2 slots2 hrun hmod hready hgen]
    exact ⟨rfl, hrun⟩

theorem projectSet_cancellation_check_period_witness :
    ((psNext (psCancelAfter (cancelCheckCount - 1))).1
        = (none, some (errMeta "query canceled"))
      ∧ (psNext (psCancelAfter (cancelCheckCount - 1))).2.proc.state = PState.draining)
    ∧ ((psNext (psCancelAfter 1)).1 = (some [some 0], none)
      ∧ (psNext (psCancelAfter 1)).2.proc.state = PState.running)
    ∧ (psOut psCancelDemo 5).1 = some [some 0] :=
  ⟨projectSet_cancellation_check_period.1 (psCancelAfter (cancelCheckCount - 1))
      "query canceled" rfl rfl
      (by rw [show (psCancelAfter (cancelCheckCount - 1)).emitCount + 1
                = cancelCheckCount from rfl, Nat.mod_self]),
   projectSet_cancellation_check_period.2.1 (psCancelAfter 1) [some 0]
      [{ demoSlot with gen := some (List.replicate (cancelCheckCount - 2) [some 0]),
                       done := false }]
      rfl (by decide) rfl rfl,
   projectSet_cancellation_check_period.2.2.1 5 (by decide)⟩
